import Mathlib

/-!
# Verification of the DEX reputation scoring pipeline

Shallow embedding of the scoring engine (`dex_model.py`) and the stream
processing loop (`kafka_service.py`) of the ai-scoring-server repository.

Numeric values (USD amounts, scores) are modelled as rationals; Unix
timestamps as integers.  A pandas DataFrame of flattened transaction rows is
modelled as a `List Row`; a row key that the Python code leaves unset for a
given action (so that the cell is `NaN`, or the whole column is absent) is
modelled as an `Option` that is `none`.
-/

namespace AiScoring

/-- A token-amount record (`tokenIn` / `tokenOut` / `token0` / `token1`).
In the source each is read with `tx.get(key, {})` followed by
`.get("amountUSD", 0)` and `.get("symbol")`, so a missing dictionary and a
missing field behave alike: amount defaults to `0`, symbol to `None`. -/
structure TokenAmt where
  amountUSD : Rat := 0
  symbol : Option String := none
  deriving Repr, DecidableEq

/-- One raw transaction entry of the inbound wallet document.
`timestamp = none` models a timestamp that is missing or that
`pd.to_datetime(..., errors="coerce")` fails to parse (such rows are
dropped by the normalizer). -/
structure RawTx where
  document_id : Option String := none
  action : Option String := none
  timestamp : Option Int := none
  protocol : Option String := none
  poolId : Option String := none
  poolName : Option String := none
  tokenIn : TokenAmt := {}
  tokenOut : TokenAmt := {}
  token0 : TokenAmt := {}
  token1 : TokenAmt := {}
  deriving Repr, DecidableEq

/-- One category group of the wallet document (`protocolType` + transactions). -/
structure CategoryData where
  protocolType : Option String := none
  transactions : List RawTx := []
  deriving Repr, DecidableEq

/-- The wallet activity batch handed to `DexModel.process_wallet`. -/
structure WalletData where
  wallet_address : String := "N/A"
  data : List CategoryData := []
  deriving Repr, DecidableEq

/-- One flattened row of the DataFrame built by
`DexModel._preprocess_dex_transactions`.  `amount_usd = none` models a row
whose dictionary has no `amount_usd` key (an action outside
swap/deposit/withdraw); in pandas such cells are `NaN`, and if no row sets
the key the column does not exist at all. -/
structure Row where
  wallet_address : String
  document_id : Option String
  action : Option String
  timestamp : Int
  protocol : Option String
  pool_id : Option String
  pool_name : Option String
  amount_usd : Option Rat
  token_in_symbol : Option String := none
  token_out_symbol : Option String := none
  token0_symbol : Option String := none
  token1_symbol : Option String := none
  deriving Repr, DecidableEq

/-- Build the row for one raw transaction with parsed timestamp `t`,
mirroring the per-transaction body of `_preprocess_dex_transactions`. -/
def mkRow (wa : String) (tx : RawTx) (t : Int) : Row :=
  let base : Row :=
    { wallet_address := wa
      document_id := tx.document_id
      action := tx.action
      timestamp := t
      protocol := tx.protocol
      pool_id := tx.poolId
      pool_name := tx.poolName
      amount_usd := none }
  if tx.action = some "swap" then
    { base with
        amount_usd := some (max tx.tokenIn.amountUSD tx.tokenOut.amountUSD)
        token_in_symbol := tx.tokenIn.symbol
        token_out_symbol := tx.tokenOut.symbol }
  else if tx.action = some "deposit" ∨ tx.action = some "withdraw" then
    { base with
        amount_usd := some (tx.token0.amountUSD + tx.token1.amountUSD)
        token0_symbol := tx.token0.symbol
        token1_symbol := tx.token1.symbol }
  else
    base

/-- `DexModel._preprocess_dex_transactions`: keep only category groups tagged
`"dexes"`, flatten their transactions into rows, and drop every row whose
timestamp fails to parse (the `dropna(subset=["datetime"])` step). -/
def preprocess_dex_transactions (w : WalletData) : List Row :=
  (w.data.filter (fun cd => cd.protocolType = some "dexes")).flatMap
    (fun cd => cd.transactions.filterMap
      (fun tx => tx.timestamp.map (mkRow w.wallet_address tx)))

/-- Timestamp of the earliest withdraw strictly after time `t`
(`withdraws[withdraws["timestamp"] > deposit_time]` followed by `.min()`);
`none` when no such withdraw exists. -/
def futureWithdrawMin (withdraws : List Row) (t : Int) : Option Int :=
  ((withdraws.filter (fun r => t < r.timestamp)).map (fun r => r.timestamp)).min?

/-- `DexModel._calculate_holding_time`.  `now` is the value of
`datetime.now().timestamp()` sampled once at the start of the call. -/
def calculate_holding_time (deposits withdraws : List Row) (now : Int) : Rat :=
  if deposits = [] then 0
  else
    let holding_times : List Rat := deposits.map (fun d =>
      match futureWithdrawMin withdraws d.timestamp with
      | some wt => ((wt - d.timestamp : Int) : Rat) / 86400
      | none => ((now - d.timestamp : Int) : Rat) / 86400)
    holding_times.sum / (holding_times.length : Rat)

/-- The liquidity-provision feature record. -/
structure LPFeatures where
  total_deposit_usd : Rat
  total_withdraw_usd : Rat
  num_deposits : Nat
  num_withdraws : Nat
  withdraw_ratio : Rat
  avg_hold_time_days : Rat
  account_age_days : Rat
  unique_pools : Nat
  deriving Repr, DecidableEq

/-- Whether the DataFrame has an `amount_usd` column: a pandas DataFrame
built from row dictionaries has a column exactly when at least one row sets
the key. -/
def hasAmountUsdColumn (df : List Row) : Bool :=
  df.any (fun r => r.amount_usd.isSome)

/-- `series.sum()` over the `amount_usd` cells of a row subset
(pandas ignores `NaN` cells, i.e. `none`; an empty selection sums to 0). -/
def sumAmounts (df : List Row) : Rat :=
  (df.filterMap (fun r => r.amount_usd)).sum

/-- `series.nunique()`: number of distinct non-null values. -/
def nuniqueOpt (xs : List (Option String)) : Nat :=
  (xs.filterMap id).dedup.length

/-- `DexModel._calculate_lp_features`.  Selecting `deposits["amount_usd"]`
raises a `KeyError` when no retained row ever set the `amount_usd` key (no
swap/deposit/withdraw action in the whole batch), because then the DataFrame
has no such column; this is modelled by the `Except` error case. -/
def calculate_lp_features (df : List Row) (now : Int) : Except String LPFeatures :=
  let deposits := df.filter (fun r => r.action = some "deposit")
  let withdraws := df.filter (fun r => r.action = some "withdraw")
  if hasAmountUsdColumn df = false then
    Except.error "KeyError: amount_usd"
  else
    let total_deposit_usd := sumAmounts deposits
    let total_withdraw_usd := sumAmounts withdraws
    Except.ok
      { total_deposit_usd := total_deposit_usd
        total_withdraw_usd := total_withdraw_usd
        num_deposits := deposits.length
        num_withdraws := withdraws.length
        withdraw_ratio :=
          if 0 < total_deposit_usd then total_withdraw_usd / total_deposit_usd else 0
        avg_hold_time_days := calculate_holding_time deposits withdraws now
        account_age_days :=
          if df = [] then 0
          else (((df.map (fun r => r.timestamp)).max?.getD 0
                  - (df.map (fun r => r.timestamp)).min?.getD 0 : Int) : Rat) / 86400
        unique_pools := nuniqueOpt (df.map (fun r => r.pool_id)) }

/-- The swap feature record. -/
structure SwapFeatures where
  total_swap_volume : Rat
  num_swaps : Nat
  unique_pools_swapped : Nat
  avg_swap_size : Rat
  token_diversity : Nat
  deriving Repr, DecidableEq

/-- `DexModel._calculate_swap_features`.  When there is no swap the fixed
zero-valued record is returned before any amount column is touched. -/
def calculate_swap_features (df : List Row) : SwapFeatures :=
  let swaps := df.filter (fun r => r.action = some "swap")
  if swaps = [] then
    { total_swap_volume := 0, num_swaps := 0, unique_pools_swapped := 0
      avg_swap_size := 0, token_diversity := 0 }
  else
    let total_swap_volume := sumAmounts swaps
    let num_swaps := swaps.length
    let unique_tokens :=
      ((swaps.map (fun r => r.token_in_symbol)).filterMap id
        ++ (swaps.map (fun r => r.token_out_symbol)).filterMap id).dedup
    { total_swap_volume := total_swap_volume
      num_swaps := num_swaps
      unique_pools_swapped := nuniqueOpt (swaps.map (fun r => r.pool_id))
      avg_swap_size :=
        if 0 < num_swaps then total_swap_volume / (num_swaps : Rat) else 0
      token_diversity := unique_tokens.length }

/-- `DexModel._calculate_final_score`: the weighted score.  The feature maps
are merged by the caller into `SanitizedFeatures`, so only the score is
returned here. -/
def calculate_final_score (lp : LPFeatures) (sw : SwapFeatures) : Rat :=
  let volume_score_lp := min (lp.total_deposit_usd / 10000 * 300) 300
  let retention_score := max 0 ((1 - lp.withdraw_ratio) * 250)
  let holding_score := min (lp.avg_hold_time_days / 30 * 150) 150
  let lp_score := volume_score_lp + retention_score + holding_score
  let volume_score_swap := min (sw.total_swap_volume / 50000 * 250) 250
  let frequency_score_swap := min ((sw.num_swaps : Rat) * 10) 200
  let diversity_score_swap := min ((sw.token_diversity : Rat) * 20) 150
  let swap_score := volume_score_swap + frequency_score_swap + diversity_score_swap
  lp_score * (6 / 10) + swap_score * (4 / 10)

/-- The sanitized output feature map: the union of the two feature records
(their key sets are disjoint) plus the appended `transaction_count`.
`_sanitize_features` only converts numpy scalars to plain numbers, which is
the identity in this model. -/
structure SanitizedFeatures where
  lp : LPFeatures
  swap : SwapFeatures
  transaction_count : Nat
  deriving Repr, DecidableEq

/-- `DexModel.process_wallet`: the full pipeline on one wallet batch.
Errors model raised exceptions (the explicit `ValueError` on an empty
DataFrame, and the `KeyError` of the liquidity feature step). -/
def process_wallet (w : WalletData) (now : Int) :
    Except String (Rat × SanitizedFeatures) :=
  let df := preprocess_dex_transactions w
  if df = [] then
    Except.error "No valid DEX transactions found for this wallet."
  else
    match calculate_lp_features df now with
    | Except.error e => Except.error e
    | Except.ok lp =>
      let sw := calculate_swap_features df
      let final_score := calculate_final_score lp sw
      Except.ok (final_score, { lp := lp, swap := sw, transaction_count := df.length })

/-!
## Stream processing loop (`kafka_service.py`)

The loop body of `KafkaService._processing_loop` is modelled per poll
result.  Deserialization and schema validation are external collaborators:
a message is either `invalid` (the `json.loads` / pydantic step raises,
carrying the error text) or `valid` (carrying the validated wallet batch).
-/

/-- Result of the deserialize-and-validate step (step 1 of the loop body). -/
inductive ParsedMsg where
  | invalid (err : String)
  | valid (w : WalletData)
  deriving Repr, DecidableEq

/-- The outcome record emitted for one message: either the success payload
(to the success topic) or the failure payload (to the failure topic). -/
inductive Outcome where
  | success (wallet_address : String) (score : Rat) (features : SanitizedFeatures)
  | failure (wallet_address : String) (error : String)
  deriving Repr, DecidableEq

/-- The per-message body of `_processing_loop`: `wallet_address` starts as
`"unknown"`, is replaced only after validation succeeds, and any raised
error is caught and turned into a failure payload carrying its message. -/
def process_message (m : ParsedMsg) (now : Int) : Outcome :=
  let wallet_address := "unknown"
  match m with
  | .invalid e => .failure wallet_address e
  | .valid w =>
    match process_wallet w now with
    | .ok (score, features) => .success w.wallet_address score features
    | .error e => .failure w.wallet_address e

/-- One `consumer.poll` result in the loop. -/
inductive PollResult where
  | empty
  | eof
  | transportError (err : String)
  | message (m : ParsedMsg)
  deriving Repr, DecidableEq

/-- Is this poll result a delivered message? -/
def PollResult.isMessage : PollResult → Bool
  | .message _ => true
  | _ => false

/-- Is this poll result a fatal transport error? -/
def PollResult.isTransportError : PollResult → Bool
  | .transportError _ => true
  | _ => false

/-- The processing counters of `KafkaService` (reset only at construction). -/
structure Counters where
  processed_count : Nat := 0
  success_count : Nat := 0
  failure_count : Nat := 0
  deriving Repr, DecidableEq

/-- Counter update for one completed message: the success or failure branch
increments its counter and the `finally` block increments `processed_count`. -/
def step_counters (c : Counters) (o : Outcome) : Counters :=
  match o with
  | .success _ _ _ =>
    { c with processed_count := c.processed_count + 1
             success_count := c.success_count + 1 }
  | .failure _ _ =>
    { c with processed_count := c.processed_count + 1
             failure_count := c.failure_count + 1 }

/-- The consume loop over a finite schedule of poll results: empty polls and
end-of-partition signals are skipped, any other consumer error breaks the
loop, and each delivered message is processed, emitted, and counted.
Returns the final counters and the emitted outcomes in order. -/
def run_loop (now : Int) : List PollResult → Counters → Counters × List Outcome
  | [], c => (c, [])
  | .empty :: ps, c => run_loop now ps c
  | .eof :: ps, c => run_loop now ps c
  | .transportError _ :: _, c => (c, [])
  | .message m :: ps, c =>
    let o := process_message m now
    let rest := run_loop now ps (step_counters c o)
    (rest.1, o :: rest.2)

/-- The stats record returned by `KafkaService.get_stats`. -/
structure Stats where
  processed_messages : Nat
  success_count : Nat
  failure_count : Nat
  is_running : Bool
  deriving Repr, DecidableEq

/-- `KafkaService.get_stats`. -/
def get_stats (c : Counters) (running : Bool) : Stats :=
  { processed_messages := c.processed_count
    success_count := c.success_count
    failure_count := c.failure_count
    is_running := running }

/-!
## Spec-side definition of the holding-time estimator

Written from the words of the specification (section 4.2), to be compared
with `calculate_holding_time`, which is translated from the source.
-/

/-- Duration of one deposit per the spec, in seconds: the smallest withdraw
timestamp strictly greater than the timestamp of the deposit, minus that
timestamp; or `now` minus the timestamp of the deposit when no such withdraw
exists. -/
def holdingDurationSpec (withdrawTimes : List Int) (depositTime now : Int) : Int :=
  match (withdrawTimes.filter (fun t => depositTime < t)).min? with
  | some wt => wt - depositTime
  | none => now - depositTime

/-- Average holding time per the spec: arithmetic mean of the per-deposit
durations over all deposits, converted to days by dividing by 86400; `0.0`
when there are no deposits. -/
def holdingTimeSpec (deposits withdraws : List Row) (now : Int) : Rat :=
  if deposits = [] then 0
  else
    let durations := deposits.map (fun d =>
      ((holdingDurationSpec (withdraws.map (fun r => r.timestamp)) d.timestamp now : Int) : Rat))
    durations.sum / (durations.length : Rat) / 86400

/-!
## Predicates used in claim statements
-/

/-- Every token amount of the batch is nonnegative (in USD). -/
def allAmountsNonneg (w : WalletData) : Prop :=
  ∀ cd ∈ w.data, ∀ tx ∈ cd.transactions,
    0 ≤ tx.tokenIn.amountUSD ∧ 0 ≤ tx.tokenOut.amountUSD ∧
    0 ≤ tx.token0.amountUSD ∧ 0 ≤ tx.token1.amountUSD

instance (w : WalletData) : Decidable (allAmountsNonneg w) := by
  unfold allAmountsNonneg
  infer_instance

/-- Whether an outcome is a success record. -/
def Outcome.isSuccess : Outcome → Bool
  | .success _ _ _ => true
  | .failure _ _ => false

/-!
## Concrete batches used in witnesses and counterexamples
-/

/-- Concrete swap transaction used in witnesses. -/
def witSwapTx : RawTx :=
  { document_id := some "d1"
    action := some "swap"
    timestamp := some 1703980800
    protocol := some "uniswap_v3"
    poolId := some "p1"
    tokenIn := { amountUSD := 1000, symbol := some "USDC" }
    tokenOut := { amountUSD := 900, symbol := some "WETH" } }

/-- Concrete deposit transaction used in witnesses. -/
def witDepositTx : RawTx :=
  { document_id := some "d2"
    action := some "deposit"
    timestamp := some 1703980900
    protocol := some "uniswap_v3"
    poolId := some "p1"
    token0 := { amountUSD := 500, symbol := some "USDC" }
    token1 := { amountUSD := 400, symbol := some "WETH" } }

/-- Concrete withdraw transaction used in witnesses. -/
def witWithdrawTx : RawTx :=
  { document_id := some "d3"
    action := some "withdraw"
    timestamp := some 1703981800
    protocol := some "uniswap_v3"
    poolId := some "p1"
    token0 := { amountUSD := 250, symbol := some "USDC" }
    token1 := { amountUSD := 250, symbol := some "WETH" } }

/-- Concrete transaction with an action outside {swap, deposit, withdraw}. -/
def witStakeTx : RawTx :=
  { document_id := some "d4"
    action := some "stake"
    timestamp := some 1703981900 }

/-- Concrete wallet batch used in witnesses: one swap, one deposit, one
withdraw and one unrecognized action, all in a `"dexes"` group. -/
def witBatch : WalletData :=
  { wallet_address := "0x742d"
    data := [{ protocolType := some "dexes"
               transactions := [witSwapTx, witDepositTx, witWithdrawTx, witStakeTx] }] }

/-- Deposit of 1 USD, later withdraw of -10000 USD: the unvalidated negative
amount drives `withdraw_ratio` to -10000 and the retention component far past
every cap. -/
def negAmountBatch : WalletData :=
  { wallet_address := "0xabc"
    data := [{ protocolType := some "dexes"
               transactions :=
                 [{ action := some "deposit"
                    timestamp := some 100
                    token0 := { amountUSD := 1 } },
                  { action := some "withdraw"
                    timestamp := some 200
                    token0 := { amountUSD := -10000 } }] }] }

/-- A batch whose only retained transaction has the unrecognized action
`"stake"`. -/
def stakeOnlyBatch : WalletData :=
  { wallet_address := "0xabc"
    data := [{ protocolType := some "dexes"
               transactions := [{ action := some "stake", timestamp := some 100 }] }] }

/-- A batch with category groups but none tagged `"dexes"`. -/
def noDexBatch : WalletData :=
  { wallet_address := "0xdead"
    data := [{ protocolType := some "lending", transactions := [witSwapTx] }] }

/-- A batch whose only retained transaction is a single swap: both the
deposit and the withdraw subsequences are empty. -/
def swapOnlyBatch : WalletData :=
  { wallet_address := "0xfeed"
    data := [{ protocolType := some "dexes", transactions := [witSwapTx] }] }

/-- The liquidity features of `swapOnlyBatch` (checked in the witness). -/
def swapOnlyLP : LPFeatures :=
  { total_deposit_usd := 0
    total_withdraw_usd := 0
    num_deposits := 0
    num_withdraws := 0
    withdraw_ratio := 0
    avg_hold_time_days := 0
    account_age_days := 0
    unique_pools := 1 }

/-- Freshly constructed counters (all zero). -/
def initCounters : Counters := {}

/-- The feature record that scoring `witBatch` produces (checked in the
witness theorems). -/
def witFeatures : SanitizedFeatures :=
  { lp := { total_deposit_usd := 900
            total_withdraw_usd := 500
            num_deposits := 1
            num_withdraws := 1
            withdraw_ratio := 5 / 9
            avg_hold_time_days := 1 / 96
            account_age_days := 11 / 864
            unique_pools := 1 }
    swap := { total_swap_volume := 1000
              num_swaps := 1
              unique_pools_swapped := 1
              avg_swap_size := 1000
              token_diversity := 2 }
    transaction_count := 4 }

/-!
## Helper lemmas
-/

/-- `mkRow` keeps the action tag of the transaction. -/
theorem mkRow_action (wa : String) (tx : RawTx) (t : Int) :
    (mkRow wa tx t).action = tx.action := by
  unfold mkRow
  split
  · rfl
  · split <;> rfl

/-- `mkRow` records the parsed timestamp. -/
theorem mkRow_timestamp (wa : String) (tx : RawTx) (t : Int) :
    (mkRow wa tx t).timestamp = t := by
  unfold mkRow
  split
  · rfl
  · split <;> rfl

/-- The `amount_usd` of a swap row. -/
theorem mkRow_amount_swap (wa : String) (tx : RawTx) (t : Int)
    (h : tx.action = some "swap") :
    (mkRow wa tx t).amount_usd = some (max tx.tokenIn.amountUSD tx.tokenOut.amountUSD) := by
  simp [mkRow, h]

/-- The `amount_usd` of a deposit or withdraw row. -/
theorem mkRow_amount_lp (wa : String) (tx : RawTx) (t : Int)
    (h : tx.action = some "deposit" ∨ tx.action = some "withdraw") :
    (mkRow wa tx t).amount_usd = some (tx.token0.amountUSD + tx.token1.amountUSD) := by
  rcases h with h | h <;> simp [mkRow, h]

/-- Membership in the normalized row list, characterised by the originating
raw transaction. -/
theorem mem_preprocess_iff {w : WalletData} {r : Row} :
    r ∈ preprocess_dex_transactions w ↔
      ∃ cd ∈ w.data, cd.protocolType = some "dexes" ∧
        ∃ tx ∈ cd.transactions, ∃ t : Int,
          tx.timestamp = some t ∧ r = mkRow w.wallet_address tx t := by
  simp only [preprocess_dex_transactions, List.mem_flatMap, List.mem_filter,
    List.mem_filterMap, Option.map_eq_some', decide_eq_true_eq]
  constructor
  · rintro ⟨cd, ⟨hcd, hp⟩, tx, htx, t, ht, hr⟩
    exact ⟨cd, hcd, hp, tx, htx, t, ht, hr.symm⟩
  · rintro ⟨cd, hcd, hp, tx, htx, t, ht, hr⟩
    exact ⟨cd, ⟨hcd, hp⟩, tx, htx, t, ht, hr.symm⟩

/-!
## Claims
-/

/-- **C4**: every raw transaction entry retained by normalization (a `"dexes"`
group member with a parsable timestamp) yields a row of the normalized
sequence whose `amount_usd` is `max(amountUSD(tokenIn), amountUSD(tokenOut))`
when the action is `swap`, and `amountUSD(token0) + amountUSD(token1)` when
the action is `deposit` or `withdraw`. -/
theorem c4_amount_usd_rule (w : WalletData) (cd : CategoryData) (tx : RawTx) (t : Int)
    (hcd : cd ∈ w.data) (hp : cd.protocolType = some "dexes")
    (htx : tx ∈ cd.transactions) (ht : tx.timestamp = some t) :
    mkRow w.wallet_address tx t ∈ preprocess_dex_transactions w ∧
    (tx.action = some "swap" →
      (mkRow w.wallet_address tx t).amount_usd =
        some (max tx.tokenIn.amountUSD tx.tokenOut.amountUSD)) ∧
    (tx.action = some "deposit" ∨ tx.action = some "withdraw" →
      (mkRow w.wallet_address tx t).amount_usd =
        some (tx.token0.amountUSD + tx.token1.amountUSD)) := by
  refine ⟨?_, fun h => mkRow_amount_swap _ _ _ h, fun h => mkRow_amount_lp _ _ _ h⟩
  exact mem_preprocess_iff.mpr ⟨cd, hcd, hp, tx, htx, t, ht, rfl⟩

/-- Witness for **C4** at a concrete batch: the swap row of `witBatch`
carries `max 1000 900 = 1000`, instantiated through `c4_amount_usd_rule`. -/
theorem c4_amount_usd_rule_witness :
    mkRow witBatch.wallet_address witSwapTx 1703980800 ∈ preprocess_dex_transactions witBatch ∧
    (mkRow witBatch.wallet_address witSwapTx 1703980800).amount_usd = some 1000 := by
  have h := c4_amount_usd_rule witBatch
    { protocolType := some "dexes"
      transactions := [witSwapTx, witDepositTx, witWithdrawTx, witStakeTx] }
    witSwapTx 1703980800 (by simp [witBatch]) rfl (by simp) rfl
  refine ⟨h.1, ?_⟩
  have h2 := h.2.1 rfl
  rw [h2]
  norm_num [witSwapTx]

/-- Summing after dividing each element is dividing the sum. -/
theorem list_sum_div_each (l : List Rat) (c : Rat) :
    (l.map (fun x => x / c)).sum = l.sum / c := by
  induction l with
  | nil => simp
  | cons a l ih => simp [ih, add_div]

/-- The earliest-qualifying-withdraw searches of the code and of the spec
coincide. -/
theorem futureWithdrawMin_eq_spec (withdraws : List Row) (t : Int) :
    futureWithdrawMin withdraws t =
      ((withdraws.map (fun r => r.timestamp)).filter (fun ts => t < ts)).min? := by
  unfold futureWithdrawMin
  rw [List.filter_map]
  rfl

/-- **C3**: the average holding time computed by the code agrees with the
description given by the spec on every input: per deposit, the duration to the smallest
strictly-later withdraw timestamp (shared withdraws are reused, the search
is over all withdraws for every deposit), or to `now` when none exists; the
result is the arithmetic mean over all deposits divided by 86400, and `0`
when there are no deposits. -/
theorem c3_holding_time_spec (deposits withdraws : List Row) (now : Int) :
    calculate_holding_time deposits withdraws now = holdingTimeSpec deposits withdraws now := by
  unfold calculate_holding_time holdingTimeSpec
  by_cases hd : deposits = []
  · simp [hd]
  · simp only [hd, if_false]
    have hfun : ∀ d : Row,
        (match futureWithdrawMin withdraws d.timestamp with
          | some wt => ((wt - d.timestamp : Int) : Rat) / 86400
          | none => ((now - d.timestamp : Int) : Rat) / 86400)
        = ((holdingDurationSpec (withdraws.map (fun r => r.timestamp)) d.timestamp now : Int) : Rat)
            / 86400 := by
      intro d
      unfold holdingDurationSpec
      rw [futureWithdrawMin_eq_spec]
      cases ((withdraws.map (fun r => r.timestamp)).filter (fun ts => d.timestamp < ts)).min? with
      | none => push_cast ; ring
      | some wt => push_cast ; ring
    have hmap : deposits.map (fun d =>
          match futureWithdrawMin withdraws d.timestamp with
          | some wt => ((wt - d.timestamp : Int) : Rat) / 86400
          | none => ((now - d.timestamp : Int) : Rat) / 86400)
        = (deposits.map (fun d =>
            ((holdingDurationSpec (withdraws.map (fun r => r.timestamp)) d.timestamp now : Int) : Rat))).map
              (fun x => x / 86400) := by
      rw [List.map_map]
      exact List.map_congr_left (fun d _ => hfun d)
    rw [hmap, list_sum_div_each]
    simp only [List.length_map]
    rw [div_div, div_div]
    ring

/-- Normalization retains nothing when no group is tagged `"dexes"` or no
timestamp parses. -/
theorem preprocess_eq_nil (w : WalletData)
    (h : (∀ cd ∈ w.data, ¬ cd.protocolType = some "dexes") ∨
         (∀ cd ∈ w.data, ∀ tx ∈ cd.transactions, tx.timestamp = none)) :
    preprocess_dex_transactions w = [] := by
  unfold preprocess_dex_transactions
  rw [List.flatMap_eq_nil_iff]
  intro cd hcd
  rw [List.mem_filter, decide_eq_true_eq] at hcd
  rcases h with h | h
  · exact absurd hcd.2 (h cd hcd.1)
  · rw [List.filterMap_eq_nil_iff]
    intro tx htx
    rw [h cd hcd.1 tx htx]
    rfl

/-- **C2**: a batch with no `"dexes"` group, or with every timestamp
unparsable, produces the Failure outcome carrying the
"No valid DEX transactions found" error for the validated wallet address,
and never a Success outcome. -/
theorem c2_empty_batch_failure (w : WalletData) (now : Int)
    (h : (∀ cd ∈ w.data, ¬ cd.protocolType = some "dexes") ∨
         (∀ cd ∈ w.data, ∀ tx ∈ cd.transactions, tx.timestamp = none)) :
    process_message (.valid w) now =
      .failure w.wallet_address "No valid DEX transactions found for this wallet." ∧
    (process_message (.valid w) now).isSuccess = false := by
  have hnil := preprocess_eq_nil w h
  constructor
  · simp [process_message, process_wallet, hnil]
  · simp [process_message, process_wallet, hnil, Outcome.isSuccess]

/-- Witness for **C2**: the concrete batch whose only group is tagged
`"lending"` is rejected with the "no valid transactions" failure record. -/
theorem c2_empty_batch_failure_witness :
    process_message (.valid noDexBatch) 5 =
      .failure noDexBatch.wallet_address "No valid DEX transactions found for this wallet." ∧
    (process_message (.valid noDexBatch) 5).isSuccess = false :=
  c2_empty_batch_failure noDexBatch 5 (Or.inl (by simp [noDexBatch]))

/-- **C10**: a message failing before the wallet address is extracted
(deserialization or validation error) yields a Failure record whose
`wallet_address` is the literal `"unknown"`, and never a Success record. -/
theorem c10_unknown_wallet_address (e : String) (now : Int) :
    process_message (.invalid e) now = .failure "unknown" e ∧
    (process_message (.invalid e) now).isSuccess = false :=
  ⟨rfl, rfl⟩

/-- On a successful run `process_wallet` returns exactly the score and the
merged feature record built from the computed LP and swap features. -/
theorem process_wallet_ok_elim {w : WalletData} {now : Int} {s : Rat} {f : SanitizedFeatures}
    (hok : process_wallet w now = Except.ok (s, f)) :
    ∃ lp, preprocess_dex_transactions w ≠ [] ∧
      calculate_lp_features (preprocess_dex_transactions w) now = Except.ok lp ∧
      s = calculate_final_score lp (calculate_swap_features (preprocess_dex_transactions w)) ∧
      f = { lp := lp
            swap := calculate_swap_features (preprocess_dex_transactions w)
            transaction_count := (preprocess_dex_transactions w).length } := by
  unfold process_wallet at hok
  by_cases hnil : preprocess_dex_transactions w = []
  · rw [if_pos hnil] at hok
    cases hok
  · rw [if_neg hnil] at hok
    cases hlp : calculate_lp_features (preprocess_dex_transactions w) now with
    | error e => rw [hlp] at hok; cases hok
    | ok lp =>
      rw [hlp] at hok
      simp only [Except.ok.injEq, Prod.mk.injEq] at hok
      exact ⟨lp, hnil, rfl, hok.1.symm, hok.2.symm⟩

/-- **C8**: for every successfully scored batch, the `transaction_count`
field of the sanitized output equals the number of transactions retained
after normalization and the timestamp filter, whatever their action tags. -/
theorem c8_transaction_count (w : WalletData) (now : Int) (s : Rat) (f : SanitizedFeatures)
    (hok : process_wallet w now = Except.ok (s, f)) :
    f.transaction_count = (preprocess_dex_transactions w).length := by
  obtain ⟨lp, _, _, _, hf⟩ := process_wallet_ok_elim hok
  rw [hf]

/-- Witness for **C8**: `witBatch` (one swap, one deposit, one withdraw, one
`"stake"`) scores successfully and its output counts all 4 retained
transactions, the unrecognized action included. -/
theorem c8_transaction_count_witness :
    witFeatures.transaction_count = (preprocess_dex_transactions witBatch).length ∧
    witFeatures.transaction_count = 4 := by
  constructor
  · apply c8_transaction_count witBatch 1703990000 (50351 / 480) witFeatures
    simp [process_wallet, preprocess_dex_transactions, mkRow, calculate_lp_features,
      calculate_swap_features, calculate_final_score, calculate_holding_time,
      futureWithdrawMin, sumAmounts, nuniqueOpt, hasAmountUsdColumn, witBatch,
      witSwapTx, witDepositTx, witWithdrawTx, witStakeTx, witFeatures]
    norm_num
  · rfl

/-- A deposit that has some strictly later withdraw in the list gets a
matched (non-`none`) earliest-withdraw lookup. -/
theorem futureWithdrawMin_isSome {withdraws : List Row} {d : Row}
    (h : ∃ r ∈ withdraws, d.timestamp < r.timestamp) :
    (futureWithdrawMin withdraws d.timestamp).isSome = true := by
  obtain ⟨r, hr, hlt⟩ := h
  unfold futureWithdrawMin
  cases hmin : ((withdraws.filter (fun x => d.timestamp < x.timestamp)).map
      (fun x => x.timestamp)).min? with
  | some wt => rfl
  | none =>
    rw [List.min?_eq_none_iff, List.map_eq_nil_iff, List.filter_eq_nil_iff] at hmin
    exact absurd (by simpa using hlt) (hmin r hr)

/-- When every deposit finds a later withdraw, the holding time does not
depend on the current time. -/
theorem holding_time_now_independent (deposits withdraws : List Row) (n1 n2 : Int)
    (h : ∀ d ∈ deposits, (futureWithdrawMin withdraws d.timestamp).isSome = true) :
    calculate_holding_time deposits withdraws n1 = calculate_holding_time deposits withdraws n2 := by
  unfold calculate_holding_time
  by_cases hd : deposits = []
  · simp [hd]
  · simp only [hd, if_false]
    have hmap : deposits.map (fun d =>
          match futureWithdrawMin withdraws d.timestamp with
          | some wt => ((wt - d.timestamp : Int) : Rat) / 86400
          | none => ((n1 - d.timestamp : Int) : Rat) / 86400)
        = deposits.map (fun d =>
          match futureWithdrawMin withdraws d.timestamp with
          | some wt => ((wt - d.timestamp : Int) : Rat) / 86400
          | none => ((n2 - d.timestamp : Int) : Rat) / 86400) := by
      apply List.map_congr_left
      intro d hdmem
      cases hopt : futureWithdrawMin withdraws d.timestamp with
      | some wt => rfl
      | none =>
        have hcon := h d hdmem
        rw [hopt] at hcon
        simp at hcon
    rw [hmap]

/-- **C9**: on a batch in which every retained deposit has some retained
withdraw with a strictly later timestamp, the output of the scoring pipeline
(score and every feature) is independent of the current time: two runs at
different times are identical. -/
theorem c9_determinism (w : WalletData) (n1 n2 : Int)
    (h : ∀ r ∈ preprocess_dex_transactions w, r.action = some "deposit" →
         ∃ q ∈ preprocess_dex_transactions w,
           q.action = some "withdraw" ∧ r.timestamp < q.timestamp) :
    process_wallet w n1 = process_wallet w n2 := by
  have hlp : calculate_lp_features (preprocess_dex_transactions w) n1
      = calculate_lp_features (preprocess_dex_transactions w) n2 := by
    have hhold : calculate_holding_time
        ((preprocess_dex_transactions w).filter (fun r => r.action = some "deposit"))
        ((preprocess_dex_transactions w).filter (fun r => r.action = some "withdraw")) n1
      = calculate_holding_time
        ((preprocess_dex_transactions w).filter (fun r => r.action = some "deposit"))
        ((preprocess_dex_transactions w).filter (fun r => r.action = some "withdraw")) n2 := by
      apply holding_time_now_independent
      intro d hd
      rw [List.mem_filter, decide_eq_true_eq] at hd
      obtain ⟨q, hq, hqw, hqt⟩ := h d hd.1 hd.2
      exact futureWithdrawMin_isSome ⟨q, List.mem_filter.mpr ⟨hq, by simpa using hqw⟩, hqt⟩
    simp only [calculate_lp_features]
    rw [hhold]
  simp only [process_wallet]
  rw [hlp]

/-- Witness for **C9** at `witBatch`, whose single deposit (t = 1703980900)
precedes its withdraw (t = 1703981800): runs at two different current times
coincide. -/
theorem c9_determinism_witness :
    process_wallet witBatch 1703990000 = process_wallet witBatch 1903990000 := by
  apply c9_determinism
  intro r hr hdep
  refine ⟨mkRow witBatch.wallet_address witWithdrawTx 1703981800, ?_, ?_, ?_⟩
  · exact mem_preprocess_iff.mpr
      ⟨{ protocolType := some "dexes"
         transactions := [witSwapTx, witDepositTx, witWithdrawTx, witStakeTx] },
        by simp [witBatch], rfl, witWithdrawTx, by simp, 1703981800, rfl, rfl⟩
  · rw [mkRow_action]
    rfl
  · rw [mkRow_timestamp]
    rw [mem_preprocess_iff] at hr
    obtain ⟨cd, hcd, hp, tx, htx, t, ht, hrr⟩ := hr
    simp only [witBatch, List.mem_singleton] at hcd
    subst hcd
    have haction : r.action = tx.action := by rw [hrr, mkRow_action]
    have htick : r.timestamp = t := by rw [hrr, mkRow_timestamp]
    rw [haction] at hdep
    rw [htick]
    simp only [List.mem_cons, List.not_mem_nil, or_false] at htx
    rcases htx with h1 | h1 | h1 | h1 <;> subst h1
    · simp [witSwapTx] at hdep
    · simp only [witDepositTx, Option.some.injEq] at ht
      omega
    · simp [witWithdrawTx] at hdep
    · simp [witStakeTx] at hdep

/-- Counterexample to **C5**: the batch whose only retained transaction has
the unrecognized action `"stake"` yields a non-empty normalized sequence
(one row), yet the liquidity feature calculation raises (`KeyError`, since
no row ever sets the `amount_usd` key and the DataFrame has no such
column), and the whole pipeline fails instead of succeeding. -/
theorem c5_counterexample :
    (preprocess_dex_transactions stakeOnlyBatch).length = 1 ∧
    calculate_lp_features (preprocess_dex_transactions stakeOnlyBatch) 0
      = Except.error "KeyError: amount_usd" ∧
    process_wallet stakeOnlyBatch 0 = Except.error "KeyError: amount_usd" := by
  refine ⟨?_, ?_, ?_⟩ <;>
    simp [process_wallet, preprocess_dex_transactions, mkRow, calculate_lp_features,
      hasAmountUsdColumn, stakeOnlyBatch]

/-- **C5** (amended): for every normalized sequence in which the action of
at least one entry is in {swap, deposit, withdraw} (so that the `amount_usd`
column exists), the liquidity feature calculation succeeds, and empty
deposit/withdraw subsequences yield zero totals, counts, ratio, and holding
time. -/
theorem c5_lp_features_amended (df : List Row) (now : Int)
    (hcol : hasAmountUsdColumn df = true) :
    calculate_lp_features df now
      = Except.ok
        { total_deposit_usd := sumAmounts (df.filter (fun r => r.action = some "deposit"))
          total_withdraw_usd := sumAmounts (df.filter (fun r => r.action = some "withdraw"))
          num_deposits := (df.filter (fun r => r.action = some "deposit")).length
          num_withdraws := (df.filter (fun r => r.action = some "withdraw")).length
          withdraw_ratio :=
            if 0 < sumAmounts (df.filter (fun r => r.action = some "deposit"))
            then sumAmounts (df.filter (fun r => r.action = some "withdraw"))
                  / sumAmounts (df.filter (fun r => r.action = some "deposit"))
            else 0
          avg_hold_time_days :=
            calculate_holding_time (df.filter (fun r => r.action = some "deposit"))
              (df.filter (fun r => r.action = some "withdraw")) now
          account_age_days :=
            if df = [] then 0
            else (((df.map (fun r => r.timestamp)).max?.getD 0
                    - (df.map (fun r => r.timestamp)).min?.getD 0 : Int) : Rat) / 86400
          unique_pools := nuniqueOpt (df.map (fun r => r.pool_id)) } ∧
    (df.filter (fun r => r.action = some "deposit") = [] →
      sumAmounts (df.filter (fun r => r.action = some "deposit")) = 0 ∧
      (df.filter (fun r => r.action = some "deposit")).length = 0 ∧
      (if 0 < sumAmounts (df.filter (fun r => r.action = some "deposit"))
        then sumAmounts (df.filter (fun r => r.action = some "withdraw"))
              / sumAmounts (df.filter (fun r => r.action = some "deposit"))
        else 0) = 0 ∧
      calculate_holding_time (df.filter (fun r => r.action = some "deposit"))
        (df.filter (fun r => r.action = some "withdraw")) now = 0) ∧
    (df.filter (fun r => r.action = some "withdraw") = [] →
      sumAmounts (df.filter (fun r => r.action = some "withdraw")) = 0 ∧
      (df.filter (fun r => r.action = some "withdraw")).length = 0) := by
  refine ⟨?_, ?_, ?_⟩
  · simp only [calculate_lp_features, hcol, Bool.true_eq_false, if_false]
  · intro hdep
    rw [hdep]
    refine ⟨rfl, rfl, ?_, ?_⟩
    · have h0 : sumAmounts ([] : List Row) = 0 := rfl
      rw [h0]
      norm_num
    · simp [calculate_holding_time]
  · intro hwd
    rw [hwd]
    exact ⟨rfl, rfl⟩

/-- Witness for **C5** (amended) at `swapOnlyBatch`: the column exists (one
swap), the calculation succeeds, and all deposit/withdraw features are
zero. -/
theorem c5_lp_features_amended_witness :
    hasAmountUsdColumn (preprocess_dex_transactions swapOnlyBatch) = true ∧
    calculate_lp_features (preprocess_dex_transactions swapOnlyBatch) 7 = Except.ok swapOnlyLP ∧
    swapOnlyLP.total_deposit_usd = 0 ∧ swapOnlyLP.num_deposits = 0 ∧
    swapOnlyLP.withdraw_ratio = 0 ∧ swapOnlyLP.avg_hold_time_days = 0 ∧
    swapOnlyLP.total_withdraw_usd = 0 ∧ swapOnlyLP.num_withdraws = 0 := by
  have hcol : hasAmountUsdColumn (preprocess_dex_transactions swapOnlyBatch) = true := by
    simp [hasAmountUsdColumn, preprocess_dex_transactions, mkRow, swapOnlyBatch, witSwapTx]
  have h := c5_lp_features_amended (preprocess_dex_transactions swapOnlyBatch) 7 hcol
  have heval : calculate_lp_features (preprocess_dex_transactions swapOnlyBatch) 7
      = Except.ok swapOnlyLP := by
    rw [h.1]
    simp [preprocess_dex_transactions, mkRow, swapOnlyBatch, witSwapTx, sumAmounts,
      nuniqueOpt, calculate_holding_time, swapOnlyLP]
  exact ⟨hcol, heval, rfl, rfl, by norm_num [swapOnlyLP], rfl, rfl, rfl⟩

/-- The three possible `amount_usd` values a normalized row can carry. -/
theorem mkRow_amount_cases (wa : String) (tx : RawTx) (t : Int) :
    (mkRow wa tx t).amount_usd = none ∨
    (mkRow wa tx t).amount_usd = some (max tx.tokenIn.amountUSD tx.tokenOut.amountUSD) ∨
    (mkRow wa tx t).amount_usd = some (tx.token0.amountUSD + tx.token1.amountUSD) := by
  simp only [mkRow]
  split
  · right; left; rfl
  · split
    · right; right; rfl
    · left; rfl

/-- Under nonnegative token amounts, the `amount_usd` value of every
normalized row is nonnegative. -/
theorem preprocess_amounts_nonneg {w : WalletData} (hw : allAmountsNonneg w) :
    ∀ r ∈ preprocess_dex_transactions w, ∀ a : Rat, r.amount_usd = some a → 0 ≤ a := by
  intro r hr a ha
  rw [mem_preprocess_iff] at hr
  obtain ⟨cd, hcd, hp, tx, htx, t, ht, hrr⟩ := hr
  obtain ⟨h1, h2, h3, h4⟩ := hw cd hcd tx htx
  subst hrr
  rcases mkRow_amount_cases w.wallet_address tx t with hc | hc | hc <;> rw [hc] at ha
  · cases ha
  · obtain rfl := Option.some.inj ha
    exact le_max_of_le_left h1
  · obtain rfl := Option.some.inj ha
    exact add_nonneg h3 h4

/-- A sum over `amount_usd` cells is nonnegative when every present cell
is. -/
theorem sumAmounts_nonneg {df : List Row}
    (h : ∀ r ∈ df, ∀ a : Rat, r.amount_usd = some a → 0 ≤ a) :
    0 ≤ sumAmounts df := by
  unfold sumAmounts
  apply List.sum_nonneg
  intro a ha
  obtain ⟨r, hr, hra⟩ := List.mem_filterMap.mp ha
  exact h r hr a hra

/-- The matched withdraw of a deposit is strictly later. -/
theorem futureWithdrawMin_lt {withdraws : List Row} {t wt : Int}
    (h : futureWithdrawMin withdraws t = some wt) : t < wt := by
  unfold futureWithdrawMin at h
  have hmem := List.min?_mem (fun a b => min_choice a b) h
  obtain ⟨r, hr, hts⟩ := List.mem_map.mp hmem
  have h2 := (List.mem_filter.mp hr).2
  rw [decide_eq_true_eq] at h2
  omega

/-- Average holding time is nonnegative when no deposit lies in the
future. -/
theorem holding_time_nonneg (deposits withdraws : List Row) (now : Int)
    (h : ∀ d ∈ deposits, d.timestamp ≤ now) :
    0 ≤ calculate_holding_time deposits withdraws now := by
  unfold calculate_holding_time
  by_cases hd : deposits = []
  · simp [hd]
  · simp only [hd, if_false]
    apply div_nonneg
    · apply List.sum_nonneg
      intro x hx
      obtain ⟨d, hdmem, hdx⟩ := List.mem_map.mp hx
      subst hdx
      cases hopt : futureWithdrawMin withdraws d.timestamp with
      | some wt =>
        simp only [hopt]
        have hlt := futureWithdrawMin_lt hopt
        apply div_nonneg _ (by norm_num)
        exact_mod_cast Int.sub_nonneg.mpr (le_of_lt hlt)
      | none =>
        simp only [hopt]
        have hle := h d hdmem
        apply div_nonneg _ (by norm_num)
        exact_mod_cast Int.sub_nonneg.mpr hle
    · positivity

/-- Total swap volume is nonnegative when every present `amount_usd` cell
is. -/
theorem swap_volume_nonneg {df : List Row}
    (h : ∀ r ∈ df, ∀ a : Rat, r.amount_usd = some a → 0 ≤ a) :
    0 ≤ (calculate_swap_features df).total_swap_volume := by
  simp only [calculate_swap_features]
  split
  · norm_num
  · exact sumAmounts_nonneg (fun r hr => h r (List.mem_of_mem_filter hr))

/-- The components of a successful `calculate_lp_features` result. -/
theorem calculate_lp_features_ok_elim {df : List Row} {now : Int} {lp : LPFeatures}
    (h : calculate_lp_features df now = Except.ok lp) :
    lp.total_deposit_usd = sumAmounts (df.filter (fun r => r.action = some "deposit")) ∧
    lp.withdraw_ratio =
      (if 0 < sumAmounts (df.filter (fun r => r.action = some "deposit"))
        then sumAmounts (df.filter (fun r => r.action = some "withdraw"))
              / sumAmounts (df.filter (fun r => r.action = some "deposit"))
        else 0) ∧
    lp.avg_hold_time_days =
      calculate_holding_time (df.filter (fun r => r.action = some "deposit"))
        (df.filter (fun r => r.action = some "withdraw")) now := by
  simp only [calculate_lp_features] at h
  by_cases hcol : hasAmountUsdColumn df = false
  · rw [if_pos hcol] at h
    cases h
  · rw [if_neg hcol] at h
    obtain rfl := (Except.ok.inj h).symm
    exact ⟨rfl, rfl, rfl⟩

/-- The weighted score is within [0, 660] whenever the four feature inputs
that are not structurally bounded are nonnegative. -/
theorem calculate_final_score_bounds (lp : LPFeatures) (sw : SwapFeatures)
    (h1 : 0 ≤ lp.total_deposit_usd) (h2 : 0 ≤ lp.withdraw_ratio)
    (h3 : 0 ≤ lp.avg_hold_time_days) (h4 : 0 ≤ sw.total_swap_volume) :
    0 ≤ calculate_final_score lp sw ∧ calculate_final_score lp sw ≤ 660 := by
  simp only [calculate_final_score]
  have hv1 : 0 ≤ min (lp.total_deposit_usd / 10000 * 300) 300 :=
    le_min (mul_nonneg (div_nonneg h1 (by norm_num)) (by norm_num)) (by norm_num)
  have hv2 : min (lp.total_deposit_usd / 10000 * 300) 300 ≤ 300 := min_le_right _ _
  have hr1 : (0 : Rat) ≤ max 0 ((1 - lp.withdraw_ratio) * 250) := le_max_left _ _
  have hr2 : max 0 ((1 - lp.withdraw_ratio) * 250) ≤ 250 := by
    apply max_le (by norm_num)
    nlinarith
  have hh1 : 0 ≤ min (lp.avg_hold_time_days / 30 * 150) 150 :=
    le_min (mul_nonneg (div_nonneg h3 (by norm_num)) (by norm_num)) (by norm_num)
  have hh2 : min (lp.avg_hold_time_days / 30 * 150) 150 ≤ 150 := min_le_right _ _
  have hs1 : 0 ≤ min (sw.total_swap_volume / 50000 * 250) 250 :=
    le_min (mul_nonneg (div_nonneg h4 (by norm_num)) (by norm_num)) (by norm_num)
  have hs2 : min (sw.total_swap_volume / 50000 * 250) 250 ≤ 250 := min_le_right _ _
  have hf1 : 0 ≤ min ((sw.num_swaps : Rat) * 10) 200 :=
    le_min (mul_nonneg (Nat.cast_nonneg _) (by norm_num)) (by norm_num)
  have hf2 : min ((sw.num_swaps : Rat) * 10) 200 ≤ 200 := min_le_right _ _
  have hd1 : 0 ≤ min ((sw.token_diversity : Rat) * 20) 150 :=
    le_min (mul_nonneg (Nat.cast_nonneg _) (by norm_num)) (by norm_num)
  have hd2 : min ((sw.token_diversity : Rat) * 20) 150 ≤ 150 := min_le_right _ _
  constructor <;> nlinarith

/-- Counterexample to **C1**: the batch `negAmountBatch` (one 1-USD deposit
followed by a withdraw whose unvalidated `amountUSD` is -10000) is scored
successfully with a final score far above 660, so `0 ≤ final_score ≤ 660`
does not hold for every input batch. -/
theorem c1_counterexample :
    (process_wallet negAmountBatch 0).isOk = true ∧
    660 < ((process_wallet negAmountBatch 0).map Prod.fst).toOption.getD 0 := by
  constructor
  · simp [process_wallet, preprocess_dex_transactions, mkRow, calculate_lp_features,
      calculate_swap_features, calculate_final_score, calculate_holding_time,
      futureWithdrawMin, sumAmounts, nuniqueOpt, hasAmountUsdColumn,
      negAmountBatch, Except.isOk, Except.toBool]
  · simp [process_wallet, preprocess_dex_transactions, mkRow, calculate_lp_features,
      calculate_swap_features, calculate_final_score, calculate_holding_time,
      futureWithdrawMin, sumAmounts, nuniqueOpt, hasAmountUsdColumn,
      negAmountBatch, Except.map, Except.toOption]
    norm_num

/-- **C1** (amended): the final score of every successfully scored batch equals
`lp_score * 0.6 + swap_score * 0.4` with the three capped LP components and
the three capped swap components; and whenever every token amount of the
batch is nonnegative and no retained timestamp is in the future, the final
score lies in [0, 660].  (Without those two preconditions the range bound
fails, see the counterexample.) -/
theorem c1_final_score_formula_range (w : WalletData) (now : Int) (s : Rat)
    (f : SanitizedFeatures) (hok : process_wallet w now = Except.ok (s, f)) :
    s = (min (f.lp.total_deposit_usd / 10000 * 300) 300
          + max 0 ((1 - f.lp.withdraw_ratio) * 250)
          + min (f.lp.avg_hold_time_days / 30 * 150) 150) * (6 / 10)
        + (min (f.swap.total_swap_volume / 50000 * 250) 250
          + min ((f.swap.num_swaps : Rat) * 10) 200
          + min ((f.swap.token_diversity : Rat) * 20) 150) * (4 / 10)
    ∧ (allAmountsNonneg w →
        (∀ r ∈ preprocess_dex_transactions w, r.timestamp ≤ now) →
        0 ≤ s ∧ s ≤ 660) := by
  obtain ⟨lp, hnil, hlp, hs, hf⟩ := process_wallet_ok_elim hok
  subst hf
  constructor
  · rw [hs]
    rfl
  · intro hamts hts
    have hrow := preprocess_amounts_nonneg hamts
    obtain ⟨htd, hratio, hhold⟩ := calculate_lp_features_ok_elim hlp
    have hdep_nonneg : 0 ≤ sumAmounts
        ((preprocess_dex_transactions w).filter (fun r => r.action = some "deposit")) :=
      sumAmounts_nonneg (fun r hr => hrow r (List.mem_of_mem_filter hr))
    have hwd_nonneg : 0 ≤ sumAmounts
        ((preprocess_dex_transactions w).filter (fun r => r.action = some "withdraw")) :=
      sumAmounts_nonneg (fun r hr => hrow r (List.mem_of_mem_filter hr))
    have hratio_nonneg : 0 ≤ lp.withdraw_ratio := by
      rw [hratio]
      split
      · exact div_nonneg hwd_nonneg hdep_nonneg
      · exact le_refl 0
    have hhold_nonneg : 0 ≤ lp.avg_hold_time_days := by
      rw [hhold]
      exact holding_time_nonneg _ _ _ (fun d hd => hts d (List.mem_of_mem_filter hd))
    have hsw_nonneg : 0 ≤ (calculate_swap_features (preprocess_dex_transactions w)).total_swap_volume :=
      swap_volume_nonneg hrow
    have hb := calculate_final_score_bounds lp
      (calculate_swap_features (preprocess_dex_transactions w))
      (htd ▸ hdep_nonneg) hratio_nonneg hhold_nonneg hsw_nonneg
    rw [hs]
    exact hb

/-- Witness for **C1** (amended) at `witBatch`: its score `50351/480`
matches the capped-component formula and lies in [0, 660]. -/
theorem c1_final_score_formula_range_witness :
    (50351 / 480 : Rat)
      = (min (witFeatures.lp.total_deposit_usd / 10000 * 300) 300
          + max 0 ((1 - witFeatures.lp.withdraw_ratio) * 250)
          + min (witFeatures.lp.avg_hold_time_days / 30 * 150) 150) * (6 / 10)
        + (min (witFeatures.swap.total_swap_volume / 50000 * 250) 250
          + min ((witFeatures.swap.num_swaps : Rat) * 10) 200
          + min ((witFeatures.swap.token_diversity : Rat) * 20) 150) * (4 / 10)
    ∧ (0 ≤ (50351 / 480 : Rat) ∧ (50351 / 480 : Rat) ≤ 660) := by
  have heval : process_wallet witBatch 1703990000 = Except.ok (50351 / 480, witFeatures) := by
    simp [process_wallet, preprocess_dex_transactions, mkRow, calculate_lp_features,
      calculate_swap_features, calculate_final_score, calculate_holding_time,
      futureWithdrawMin, sumAmounts, nuniqueOpt, hasAmountUsdColumn, witBatch,
      witSwapTx, witDepositTx, witWithdrawTx, witStakeTx, witFeatures]
    norm_num
  have h := c1_final_score_formula_range witBatch 1703990000 (50351 / 480) witFeatures heval
  refine ⟨h.1, h.2 ?_ ?_⟩
  · intro cd hcd tx htx
    simp only [witBatch, List.mem_singleton] at hcd
    subst hcd
    simp only [List.mem_cons, List.not_mem_nil, or_false] at htx
    rcases htx with h1 | h1 | h1 | h1 <;> subst h1 <;>
      norm_num [witSwapTx, witDepositTx, witWithdrawTx, witStakeTx]
  · intro r hr
    rw [mem_preprocess_iff] at hr
    obtain ⟨cd, hcd, hp, tx, htx, t, ht, hrr⟩ := hr
    simp only [witBatch, List.mem_singleton] at hcd
    subst hcd
    rw [hrr, mkRow_timestamp]
    simp only [List.mem_cons, List.not_mem_nil, or_false] at htx
    rcases htx with h1 | h1 | h1 | h1 <;> subst h1 <;>
      simp only [witSwapTx, witDepositTx, witWithdrawTx, witStakeTx,
        Option.some.injEq] at ht <;> omega

/-- One counter step keeps the invariant. -/
theorem step_counters_inv (c : Counters) (o : Outcome)
    (hinv : c.processed_count = c.success_count + c.failure_count) :
    (step_counters c o).processed_count
      = (step_counters c o).success_count + (step_counters c o).failure_count := by
  cases o <;> simp [step_counters] <;> omega

/-- The loop preserves the counter invariant and never decreases a
counter. -/
theorem run_loop_counters (now : Int) (polls : List PollResult) (c : Counters)
    (hinv : c.processed_count = c.success_count + c.failure_count) :
    (run_loop now polls c).1.processed_count
      = (run_loop now polls c).1.success_count + (run_loop now polls c).1.failure_count ∧
    c.processed_count ≤ (run_loop now polls c).1.processed_count ∧
    c.success_count ≤ (run_loop now polls c).1.success_count ∧
    c.failure_count ≤ (run_loop now polls c).1.failure_count := by
  induction polls generalizing c with
  | nil => exact ⟨hinv, le_refl _, le_refl _, le_refl _⟩
  | cons p ps ih =>
    cases p with
    | empty => simpa [run_loop] using ih c hinv
    | eof => simpa [run_loop] using ih c hinv
    | transportError e => exact ⟨hinv, le_refl _, le_refl _, le_refl _⟩
    | message m =>
      have hstep := step_counters_inv c (process_message m now) hinv
      have h2 := ih (step_counters c (process_message m now)) hstep
      have hmono : c.processed_count ≤ (step_counters c (process_message m now)).processed_count ∧
          c.success_count ≤ (step_counters c (process_message m now)).success_count ∧
          c.failure_count ≤ (step_counters c (process_message m now)).failure_count := by
        cases process_message m now <;> simp [step_counters]
      simp only [run_loop]
      exact ⟨h2.1, le_trans hmono.1 h2.2.1, le_trans hmono.2.1 h2.2.2.1,
        le_trans hmono.2.2 h2.2.2.2⟩

/-- **C6**: each completed message increments `processed_count` and exactly
one of `success_count`/`failure_count`, the step and the whole loop
preserve `processed = success + failure`, and no counter ever decreases
across a run of the loop. -/
theorem c6_counters_invariant (now : Int) (polls : List PollResult) (c : Counters) (o : Outcome)
    (hinv : c.processed_count = c.success_count + c.failure_count) :
    ((step_counters c o).processed_count = c.processed_count + 1 ∧
      (((step_counters c o).success_count = c.success_count + 1 ∧
        (step_counters c o).failure_count = c.failure_count) ∨
       ((step_counters c o).failure_count = c.failure_count + 1 ∧
        (step_counters c o).success_count = c.success_count))) ∧
    (step_counters c o).processed_count
      = (step_counters c o).success_count + (step_counters c o).failure_count ∧
    (run_loop now polls c).1.processed_count
      = (run_loop now polls c).1.success_count + (run_loop now polls c).1.failure_count ∧
    c.processed_count ≤ (run_loop now polls c).1.processed_count ∧
    c.success_count ≤ (run_loop now polls c).1.success_count ∧
    c.failure_count ≤ (run_loop now polls c).1.failure_count := by
  refine ⟨?_, step_counters_inv c o hinv, ?_⟩
  · cases o with
    | success a s f => exact ⟨rfl, Or.inl ⟨rfl, rfl⟩⟩
    | failure a e => exact ⟨rfl, Or.inr ⟨rfl, rfl⟩⟩
  · exact run_loop_counters now polls c hinv

/-- Witness for **C6** at a concrete run: two failing messages from fresh
counters. -/
theorem c6_counters_invariant_witness :
    ((step_counters initCounters (Outcome.failure "unknown" "boom")).processed_count
        = initCounters.processed_count + 1 ∧
      (((step_counters initCounters (Outcome.failure "unknown" "boom")).success_count
          = initCounters.success_count + 1 ∧
        (step_counters initCounters (Outcome.failure "unknown" "boom")).failure_count
          = initCounters.failure_count) ∨
       ((step_counters initCounters (Outcome.failure "unknown" "boom")).failure_count
          = initCounters.failure_count + 1 ∧
        (step_counters initCounters (Outcome.failure "unknown" "boom")).success_count
          = initCounters.success_count))) ∧
    (step_counters initCounters (Outcome.failure "unknown" "boom")).processed_count
      = (step_counters initCounters (Outcome.failure "unknown" "boom")).success_count
        + (step_counters initCounters (Outcome.failure "unknown" "boom")).failure_count ∧
    (run_loop 0 [PollResult.message (ParsedMsg.invalid "boom"), PollResult.eof,
        PollResult.message (ParsedMsg.invalid "oops")] initCounters).1.processed_count
      = (run_loop 0 [PollResult.message (ParsedMsg.invalid "boom"), PollResult.eof,
          PollResult.message (ParsedMsg.invalid "oops")] initCounters).1.success_count
        + (run_loop 0 [PollResult.message (ParsedMsg.invalid "boom"), PollResult.eof,
            PollResult.message (ParsedMsg.invalid "oops")] initCounters).1.failure_count ∧
    initCounters.processed_count
      ≤ (run_loop 0 [PollResult.message (ParsedMsg.invalid "boom"), PollResult.eof,
          PollResult.message (ParsedMsg.invalid "oops")] initCounters).1.processed_count ∧
    initCounters.success_count
      ≤ (run_loop 0 [PollResult.message (ParsedMsg.invalid "boom"), PollResult.eof,
          PollResult.message (ParsedMsg.invalid "oops")] initCounters).1.success_count ∧
    initCounters.failure_count
      ≤ (run_loop 0 [PollResult.message (ParsedMsg.invalid "boom"), PollResult.eof,
          PollResult.message (ParsedMsg.invalid "oops")] initCounters).1.failure_count :=
  c6_counters_invariant 0
    [PollResult.message (ParsedMsg.invalid "boom"), PollResult.eof,
      PollResult.message (ParsedMsg.invalid "oops")]
    initCounters (Outcome.failure "unknown" "boom") rfl

/-- **C7**: over any poll schedule free of fatal transport errors, the loop
emits exactly one outcome per delivered message — each computed by the
per-message handler, so failures are recovered locally and never abort the
loop — and the processed counter grows by exactly the number of delivered
messages. -/
theorem c7_per_message_isolation (now : Int) (polls : List PollResult) (c : Counters)
    (h : ∀ p ∈ polls, p.isTransportError = false) :
    (run_loop now polls c).2 = polls.filterMap (fun p =>
      match p with
      | .message m => some (process_message m now)
      | _ => none) ∧
    (run_loop now polls c).1.processed_count
      = c.processed_count + (polls.filter (fun p => p.isMessage)).length := by
  induction polls generalizing c with
  | nil => simp [run_loop]
  | cons p ps ih =>
    have hps : ∀ q ∈ ps, q.isTransportError = false := fun q hq => h q (List.mem_cons_of_mem _ hq)
    cases p with
    | empty =>
      have h2 := ih c hps
      simpa [run_loop, List.filterMap_cons, List.filter_cons, PollResult.isMessage] using h2
    | eof =>
      have h2 := ih c hps
      simpa [run_loop, List.filterMap_cons, List.filter_cons, PollResult.isMessage] using h2
    | transportError e =>
      have hp := h _ (List.mem_cons_self _ _)
      simp [PollResult.isTransportError] at hp
    | message m =>
      have h2 := ih (step_counters c (process_message m now)) hps
      have hstep : (step_counters c (process_message m now)).processed_count
          = c.processed_count + 1 := by
        cases process_message m now <;> rfl
      constructor
      · simp only [run_loop, List.filterMap_cons]
        rw [h2.1]
      · simp only [run_loop]
        rw [h2.2, hstep, List.filter_cons,
          if_pos (show (PollResult.message m).isMessage = true from rfl), List.length_cons]
        omega

/-- Witness for **C7** at a concrete transport-error-free schedule: one
invalid message (a per-message failure), one empty poll, one
end-of-partition signal. -/
theorem c7_per_message_isolation_witness :
    (run_loop 3 [PollResult.message (ParsedMsg.invalid "bad json"), PollResult.empty,
        PollResult.eof] initCounters).2
      = [Outcome.failure "unknown" "bad json"] ∧
    (run_loop 3 [PollResult.message (ParsedMsg.invalid "bad json"), PollResult.empty,
        PollResult.eof] initCounters).1.processed_count
      = initCounters.processed_count + 1 := by
  have h := c7_per_message_isolation 3
    [PollResult.message (ParsedMsg.invalid "bad json"), PollResult.empty, PollResult.eof]
    initCounters (by intro p hp; fin_cases hp <;> rfl)
  exact ⟨h.1, h.2⟩

end AiScoring
